import Mathlib

/-!
Verification of the reconciliation core of On-Demand_systempull.py.

The embedding below follows the source file closely:

* `Rec` is the shape of both a fetched canonical record (the dictionaries built
  by process_equipment_data and consumed by upsert_data) and a row of the main
  or history table (same twelve columns).  Python `None` is `Option.none`.
  The two datetime-valued columns (`timeUpdated`, `handover_date`) are
  modelled by their ISO rendering as `Option String`; a datetime object is
  never falsy in Python, so `x.isoformat() if x else ""` agrees with the
  is-not-None test used for the string columns.
* `ChangeLogEntry` mirrors the 25 CSV_COLUMNS of the change log dictionary.
* `processRecord` is the body of the for-loop of upsert_data (lines 141-284),
  with a fault-injection tag `FailMode` standing for the exception that the
  `except Exception: continue` at lines 281-283 would catch: `failEarly` is an
  error raised before any store statement took effect (e.g. the SELECT), and
  `failMain` is the main-table INSERT/UPDATE statement itself raising (in the
  update path this happens after the history INSERT already executed and
  `historical_count` was already incremented, exactly as in the source).
  Per-record commits are not modelled: statement effects are applied
  immediately, which agrees with the source whenever a later commit occurs.
* `upsert_data` folds `processRecord` over the batch, as the source loop does.
-/

namespace SystemPull

/-- One canonical record / one row of the main or history table
(the twelve columns of lines 76-89 of the source). -/
structure Rec where
  system_id : Option String
  project_id : Option String
  name : Option String
  description : Option String
  building_id : Option String
  building : Option String
  discipline_id : Option String
  discipline : Option String
  timeUpdated : Option String
  checklist_id : Option String
  checklist_name : Option String
  handover_date : Option String
deriving DecidableEq, Repr

/-- One change-log dictionary, with the 25 fields of CSV_COLUMNS (lines 38-51). -/
structure ChangeLogEntry where
  timestamp : String
  action : String
  system_id : String
  old_project_id : String
  new_project_id : String
  old_name : String
  new_name : String
  old_description : String
  new_description : String
  old_building_id : String
  new_building_id : String
  old_building : String
  new_building : String
  old_discipline_id : String
  new_discipline_id : String
  old_discipline : String
  new_discipline : String
  old_timeUpdated : String
  new_timeUpdated : String
  old_checklist_id : String
  new_checklist_id : String
  old_checklist_name : String
  new_checklist_name : String
  old_handover_date : String
  new_handover_date : String
deriving DecidableEq, Repr

/-- Python `str(v) if v is not None else ""` (and, for the datetime columns,
`v.isoformat() if v else ""`, with the datetime abstracted by its rendering). -/
def strOrEmpty : Option String → String
  | none => ""
  | some v => v

/-- The insert-branch log dictionary (lines 157-162 and 274-279): action
`insert`, the given subject, and every other CSV column mapped to `""`. -/
def mkInsertEntry (now subj : String) : ChangeLogEntry where
  timestamp := now
  action := "insert"
  system_id := subj
  old_project_id := ""
  new_project_id := ""
  old_name := ""
  new_name := ""
  old_description := ""
  new_description := ""
  old_building_id := ""
  new_building_id := ""
  old_building := ""
  new_building := ""
  old_discipline_id := ""
  new_discipline_id := ""
  old_discipline := ""
  new_discipline := ""
  old_timeUpdated := ""
  new_timeUpdated := ""
  old_checklist_id := ""
  new_checklist_id := ""
  old_checklist_name := ""
  new_checklist_name := ""
  old_handover_date := ""
  new_handover_date := ""

/-- The update-branch change_details dictionary (lines 189-228).  In the source
the changed and unchanged branches of the nine-key loop store exactly the same
old/new strings, and handover_date/timeUpdated are rendered afterwards, so the
dictionary is the full rendering of both records regardless of which fields
differ. -/
def mkUpdateEntry (now sid : String) (r old : Rec) : ChangeLogEntry where
  timestamp := now
  action := "update"
  system_id := sid
  old_project_id := strOrEmpty old.project_id
  new_project_id := strOrEmpty r.project_id
  old_name := strOrEmpty old.name
  new_name := strOrEmpty r.name
  old_description := strOrEmpty old.description
  new_description := strOrEmpty r.description
  old_building_id := strOrEmpty old.building_id
  new_building_id := strOrEmpty r.building_id
  old_building := strOrEmpty old.building
  new_building := strOrEmpty r.building
  old_discipline_id := strOrEmpty old.discipline_id
  new_discipline_id := strOrEmpty r.discipline_id
  old_discipline := strOrEmpty old.discipline
  new_discipline := strOrEmpty r.discipline
  old_timeUpdated := strOrEmpty old.timeUpdated
  new_timeUpdated := strOrEmpty r.timeUpdated
  old_checklist_id := strOrEmpty old.checklist_id
  new_checklist_id := strOrEmpty r.checklist_id
  old_checklist_name := strOrEmpty old.checklist_name
  new_checklist_name := strOrEmpty r.checklist_name
  old_handover_date := strOrEmpty old.handover_date
  new_handover_date := strOrEmpty r.handover_date

/-- The record_changed flag (lines 188-196): true iff one of the nine compared
keys differs between the fetched record and the existing row.  Python `!=` on
possibly-None values is null-safe disequality on `Option String`. -/
def comparableChanged (r old : Rec) : Bool :=
  (r.project_id != old.project_id) || (r.name != old.name) ||
  (r.description != old.description) || (r.building_id != old.building_id) ||
  (r.building != old.building) || (r.discipline_id != old.discipline_id) ||
  (r.discipline != old.discipline) || (r.checklist_id != old.checklist_id) ||
  (r.checklist_name != old.checklist_name)

/-- The SELECT ... WHERE system_id = ? followed by fetchone (lines 164-171):
first row whose system_id equals the given non-null value.  A stored NULL
system_id never compares equal to a value in SQL, matching `== some sid`. -/
def lookupMain (main : List Rec) (sid : String) : Option Rec :=
  main.find? (fun row => row.system_id == some sid)

/-- Effect of the UPDATE statement (lines 245-257) on one row: every column
except system_id is overwritten with the fetched record's value. -/
def overwriteRow (old r : Rec) : Rec where
  system_id := old.system_id
  project_id := r.project_id
  name := r.name
  description := r.description
  building_id := r.building_id
  building := r.building
  discipline_id := r.discipline_id
  discipline := r.discipline
  timeUpdated := r.timeUpdated
  checklist_id := r.checklist_id
  checklist_name := r.checklist_name
  handover_date := r.handover_date

/-- The UPDATE ... WHERE system_id = ? statement applied to the main table:
all rows keyed by sid are overwritten, the rest untouched. -/
def updateMain (main : List Rec) (sid : String) (r : Rec) : List Rec :=
  main.map (fun row => if row.system_id == some sid then overwriteRow row r else row)

/-- The row written by the INSERT statements (lines 144-155 and 261-272):
the explicit system_id value followed by the record's other eleven columns. -/
def insertRow (sid : Option String) (r : Rec) : Rec where
  system_id := sid
  project_id := r.project_id
  name := r.name
  description := r.description
  building_id := r.building_id
  building := r.building
  discipline_id := r.discipline_id
  discipline := r.discipline
  timeUpdated := r.timeUpdated
  checklist_id := r.checklist_id
  checklist_name := r.checklist_name
  handover_date := r.handover_date

/-- Fault injection for the per-record `except Exception: continue` handler:
`ok` means no exception; `failEarly` an exception before any store statement
took effect; `failMain` the main-table INSERT/UPDATE statement raising. -/
inductive FailMode where
  | ok
  | failEarly
  | failMain
deriving DecidableEq, Repr

/-- The mutable state of one upsert_data run: the two tables, the three
counters and the accumulated change log (lines 136-139). -/
structure UpsertState where
  main : List Rec
  hist : List Rec
  rows_added : Nat
  rows_updated : Nat
  historical_count : Nat
  changes_log : List ChangeLogEntry
deriving DecidableEq, Repr

/-- Effect of a successful main-table INSERT, counter bump and log append
(lines 144-162 and 261-279); the subject string is "None" (Python str of
None) for a null system_id and the system_id itself otherwise. -/
def insertApplied (now : String) (s : UpsertState) (r : Rec) : UpsertState :=
  { s with
    main := s.main ++ [insertRow r.system_id r]
    rows_added := s.rows_added + 1
    changes_log := s.changes_log ++ [mkInsertEntry now (r.system_id.getD "None")] }

/-- Effect of the history INSERT plus `historical_count += 1`
(lines 231-243): the pre-update row is appended to the history table. -/
def historyApplied (s : UpsertState) (old : Rec) : UpsertState :=
  { s with
    hist := s.hist ++ [old]
    historical_count := s.historical_count + 1 }

/-- Effect of the main-table UPDATE, `rows_updated += 1` and the log append
(lines 245-259). -/
def updateApplied (now : String) (s : UpsertState) (r : Rec) (sid : String)
    (old : Rec) : UpsertState :=
  { s with
    main := updateMain s.main sid r
    rows_updated := s.rows_updated + 1
    changes_log := s.changes_log ++ [mkUpdateEntry now sid r old] }

/-- The body of the per-record loop of upsert_data (lines 141-284). -/
def processRecord (now : String) (s : UpsertState) (rf : Rec × FailMode) : UpsertState :=
  let r := rf.1
  let f := rf.2
  if f = FailMode.failEarly then s
  else
    match r.system_id with
    | none => if f = FailMode.failMain then s else insertApplied now s r
    | some sid =>
      match lookupMain s.main sid with
      | some existing =>
        if comparableChanged r existing then
          let s1 := historyApplied s existing
          if f = FailMode.failMain then s1 else updateApplied now s1 r sid existing
        else s
      | none => if f = FailMode.failMain then s else insertApplied now s r

/-- upsert_data (lines 134-297): fold the per-record body over the batch. -/
def upsert_data (now : String) (s : UpsertState) (data : List (Rec × FailMode)) : UpsertState :=
  data.foldl (processRecord now) s

/-- Starting state of a run: given tables, zero counters, empty log. -/
def initState (main hist : List Rec) : UpsertState where
  main := main
  hist := hist
  rows_added := 0
  rows_updated := 0
  historical_count := 0
  changes_log := []

/-! Branch equations for `processRecord`, shared by the claim theorems. -/

theorem step_noop (now : String) (s : UpsertState) (r : Rec) (sid : String)
    (row : Rec) (f : FailMode) (hsid : r.system_id = some sid)
    (hl : lookupMain s.main sid = some row)
    (hchg : comparableChanged r row = false) :
    processRecord now s (r, f) = s := by
  cases f <;> simp [processRecord, hsid, hl, hchg]

theorem step_update (now : String) (s : UpsertState) (r : Rec) (sid : String)
    (row : Rec) (hsid : r.system_id = some sid)
    (hl : lookupMain s.main sid = some row)
    (hchg : comparableChanged r row = true) :
    processRecord now s (r, FailMode.ok) =
      { s with main := updateMain s.main sid r
               hist := s.hist ++ [row]
               rows_updated := s.rows_updated + 1
               historical_count := s.historical_count + 1
               changes_log := s.changes_log ++ [mkUpdateEntry now sid r row] } := by
  simp [processRecord, hsid, hl, hchg, historyApplied, updateApplied]

theorem step_insert (now : String) (s : UpsertState) (r : Rec)
    (habs : ∀ sid, r.system_id = some sid → lookupMain s.main sid = none) :
    processRecord now s (r, FailMode.ok) = insertApplied now s r := by
  match h : r.system_id with
  | none => simp [processRecord, h]
  | some sid => simp [processRecord, h, habs sid h]

theorem step_failEarly (now : String) (s : UpsertState) (r : Rec) :
    processRecord now s (r, FailMode.failEarly) = s := by
  simp [processRecord]

theorem step_failMain (now : String) (s : UpsertState) (r : Rec) :
    processRecord now s (r, FailMode.failMain) = s ∨
      ∃ sid old, r.system_id = some sid ∧ lookupMain s.main sid = some old ∧
        comparableChanged r old = true ∧
        processRecord now s (r, FailMode.failMain) = historyApplied s old := by
  cases hsid : r.system_id with
  | none => left; simp [processRecord, hsid]
  | some sid =>
    cases hl : lookupMain s.main sid with
    | none => left; simp [processRecord, hsid, hl]
    | some old =>
      by_cases hchg : comparableChanged r old
      · right
        exact ⟨sid, old, rfl, hl, hchg, by simp [processRecord, hsid, hl, hchg]⟩
      · left
        simp [processRecord, hsid, hl, hchg]

/-! Concrete sample inputs used by the witness and counterexample theorems. -/

/-- A persisted row with system_id S1. -/
def sampleRow : Rec where
  system_id := some "S1"
  project_id := some "P1"
  name := some "A"
  description := none
  building_id := some "B1"
  building := some "Bldg"
  discipline_id := none
  discipline := none
  timeUpdated := some "2024-01-01T00:00:00"
  checklist_id := none
  checklist_name := none
  handover_date := some "2024-06-01T00:00:00"

/-- A second persisted row with system_id S2. -/
def sampleRow2 : Rec := { sampleRow with system_id := some "S2", name := some "Z" }

/-- A fetched record equal to sampleRow on the nine comparable attributes but
with different handover_date and timeUpdated. -/
def sampleSame : Rec :=
  { sampleRow with
    timeUpdated := some "2025-01-01T00:00:00"
    handover_date := some "2025-06-01T00:00:00" }

/-- A fetched record whose name differs from sampleRow. -/
def sampleChangedB : Rec := { sampleRow with name := some "B" }

/-- Another fetched record for S1, with yet another name. -/
def sampleChangedC : Rec := { sampleRow with name := some "C" }

/-- A record with a null system_id (and null-valued optional columns). -/
def sampleNullSid : Rec :=
  { sampleRow with system_id := none, handover_date := none }

/-- A record with a system_id absent from the sample store. -/
def sampleNewSid : Rec := { sampleRow with system_id := some "S9" }

/-- The sample starting state: main table holds sampleRow only. -/
def sampleState : UpsertState := initState [sampleRow] []

/-- C1: for a record with a non-null system_id whose store row is null-safe
equal on all nine comparable attributes, reconciliation is a NO-OP: the state
(tables, counters, change log) is returned unchanged, even if handover_date or
timeUpdated differ. -/
theorem C1_change_trigger_isolation (now : String) (s : UpsertState) (r : Rec)
    (sid : String) (row : Rec) (hsid : r.system_id = some sid)
    (hl : lookupMain s.main sid = some row)
    (hchg : comparableChanged r row = false) :
    processRecord now s (r, FailMode.ok) = s :=
  step_noop now s r sid row FailMode.ok hsid hl hchg

/-- C1 witness: a concrete record differing from its persisted row only in
handover_date and timeUpdated is a NO-OP. -/
theorem C1_witness :
    processRecord "t" sampleState (sampleSame, FailMode.ok) = sampleState :=
  C1_change_trigger_isolation "t" sampleState sampleSame "S1" sampleRow rfl rfl rfl

/-- C3: a record classified as changed archives exactly the pre-update row in
the history table, overwrites the main row's eleven non-key columns with the
fetched values (via updateMain/overwriteRow, which set every column except
system_id, including timeUpdated and handover_date), increments rows_updated
and historical_count by one each, leaves rows_added unchanged, and appends one
update log entry. -/
theorem C3_update_with_archive (now : String) (s : UpsertState) (r : Rec)
    (sid : String) (row : Rec) (hsid : r.system_id = some sid)
    (hl : lookupMain s.main sid = some row)
    (hchg : comparableChanged r row = true) :
    processRecord now s (r, FailMode.ok) =
      { s with main := updateMain s.main sid r
               hist := s.hist ++ [row]
               rows_updated := s.rows_updated + 1
               historical_count := s.historical_count + 1
               changes_log := s.changes_log ++ [mkUpdateEntry now sid r row] } :=
  step_update now s r sid row hsid hl hchg

/-- C3 witness: updating sampleRow's name from A to B archives the old row and
overwrites the main row. -/
theorem C3_witness :
    processRecord "t" sampleState (sampleChangedB, FailMode.ok) =
      { sampleState with
          main := updateMain sampleState.main "S1" sampleChangedB
          hist := sampleState.hist ++ [sampleRow]
          rows_updated := sampleState.rows_updated + 1
          historical_count := sampleState.historical_count + 1
          changes_log := sampleState.changes_log ++
            [mkUpdateEntry "t" "S1" sampleChangedB sampleRow] } :=
  C3_update_with_archive "t" sampleState sampleChangedB "S1" sampleRow rfl rfl rfl

/-- C5: a record whose system_id is null, or whose system_id is absent from
the store, performs exactly one main-table insert and appends exactly one
change-log entry with action insert, subject "None" for a null system_id and
the system_id otherwise, and every old/new field equal to the empty string. -/
theorem C5_insert_without_diff (now : String) (s : UpsertState) (r : Rec)
    (habs : ∀ sid, r.system_id = some sid → lookupMain s.main sid = none) :
    processRecord now s (r, FailMode.ok) =
      { s with main := s.main ++ [insertRow r.system_id r]
               rows_added := s.rows_added + 1
               changes_log := s.changes_log ++
                 [{ timestamp := now
                    action := "insert"
                    system_id := r.system_id.getD "None"
                    old_project_id := ""
                    new_project_id := ""
                    old_name := ""
                    new_name := ""
                    old_description := ""
                    new_description := ""
                    old_building_id := ""
                    new_building_id := ""
                    old_building := ""
                    new_building := ""
                    old_discipline_id := ""
                    new_discipline_id := ""
                    old_discipline := ""
                    new_discipline := ""
                    old_timeUpdated := ""
                    new_timeUpdated := ""
                    old_checklist_id := ""
                    new_checklist_id := ""
                    old_checklist_name := ""
                    new_checklist_name := ""
                    old_handover_date := ""
                    new_handover_date := "" }] } := by
  rw [step_insert now s r habs]; rfl

/-- C5 witness: inserting a record with a null system_id appends one row and
one blank insert entry with subject "None". -/
theorem C5_witness :
    processRecord "t" sampleState (sampleNullSid, FailMode.ok) =
      { sampleState with
          main := sampleState.main ++ [insertRow sampleNullSid.system_id sampleNullSid]
          rows_added := sampleState.rows_added + 1
          changes_log := sampleState.changes_log ++
            [{ timestamp := "t"
               action := "insert"
               system_id := sampleNullSid.system_id.getD "None"
               old_project_id := ""
               new_project_id := ""
               old_name := ""
               new_name := ""
               old_description := ""
               new_description := ""
               old_building_id := ""
               new_building_id := ""
               old_building := ""
               new_building := ""
               old_discipline_id := ""
               new_discipline_id := ""
               old_discipline := ""
               new_discipline := ""
               old_timeUpdated := ""
               new_timeUpdated := ""
               old_checklist_id := ""
               new_checklist_id := ""
               old_checklist_name := ""
               new_checklist_name := ""
               old_handover_date := ""
               new_handover_date := "" }] } :=
  C5_insert_without_diff "t" sampleState sampleNullSid (fun _ h => nomatch h)

/-- C6: the change-log entry appended for a changed record has action update,
subject system_id, and old/new string renderings for all eleven tracked fields
(the nine comparable attributes plus timeUpdated and handover_date), filled in
whether or not each individual field changed, with null rendered as "". -/
theorem C6_update_log_completeness (now : String) (s : UpsertState) (r : Rec)
    (sid : String) (row : Rec) (hsid : r.system_id = some sid)
    (hl : lookupMain s.main sid = some row)
    (hchg : comparableChanged r row = true) :
    (processRecord now s (r, FailMode.ok)).changes_log =
      s.changes_log ++
        [{ timestamp := now
           action := "update"
           system_id := sid
           old_project_id := strOrEmpty row.project_id
           new_project_id := strOrEmpty r.project_id
           old_name := strOrEmpty row.name
           new_name := strOrEmpty r.name
           old_description := strOrEmpty row.description
           new_description := strOrEmpty r.description
           old_building_id := strOrEmpty row.building_id
           new_building_id := strOrEmpty r.building_id
           old_building := strOrEmpty row.building
           new_building := strOrEmpty r.building
           old_discipline_id := strOrEmpty row.discipline_id
           new_discipline_id := strOrEmpty r.discipline_id
           old_discipline := strOrEmpty row.discipline
           new_discipline := strOrEmpty r.discipline
           old_timeUpdated := strOrEmpty row.timeUpdated
           new_timeUpdated := strOrEmpty r.timeUpdated
           old_checklist_id := strOrEmpty row.checklist_id
           new_checklist_id := strOrEmpty r.checklist_id
           old_checklist_name := strOrEmpty row.checklist_name
           new_checklist_name := strOrEmpty r.checklist_name
           old_handover_date := strOrEmpty row.handover_date
           new_handover_date := strOrEmpty r.handover_date }] := by
  rw [step_update now s r sid row hsid hl hchg]
  rfl

/-- C6 witness: the update entry for the sample change carries renderings of
every tracked field, including the unchanged ones and "" for nulls. -/
theorem C6_witness :
    (processRecord "t" sampleState (sampleChangedB, FailMode.ok)).changes_log =
      sampleState.changes_log ++
        [{ timestamp := "t"
           action := "update"
           system_id := "S1"
           old_project_id := strOrEmpty sampleRow.project_id
           new_project_id := strOrEmpty sampleChangedB.project_id
           old_name := strOrEmpty sampleRow.name
           new_name := strOrEmpty sampleChangedB.name
           old_description := strOrEmpty sampleRow.description
           new_description := strOrEmpty sampleChangedB.description
           old_building_id := strOrEmpty sampleRow.building_id
           new_building_id := strOrEmpty sampleChangedB.building_id
           old_building := strOrEmpty sampleRow.building
           new_building := strOrEmpty sampleChangedB.building
           old_discipline_id := strOrEmpty sampleRow.discipline_id
           new_discipline_id := strOrEmpty sampleChangedB.discipline_id
           old_discipline := strOrEmpty sampleRow.discipline
           new_discipline := strOrEmpty sampleChangedB.discipline
           old_timeUpdated := strOrEmpty sampleRow.timeUpdated
           new_timeUpdated := strOrEmpty sampleChangedB.timeUpdated
           old_checklist_id := strOrEmpty sampleRow.checklist_id
           new_checklist_id := strOrEmpty sampleChangedB.checklist_id
           old_checklist_name := strOrEmpty sampleRow.checklist_name
           new_checklist_name := strOrEmpty sampleChangedB.checklist_name
           old_handover_date := strOrEmpty sampleRow.handover_date
           new_handover_date := strOrEmpty sampleChangedB.handover_date }] :=
  C6_update_log_completeness "t" sampleState sampleChangedB "S1" sampleRow rfl rfl rfl

/-- C4 counterexample: a changed record whose main-table UPDATE raises after
the history INSERT already executed still increments historical_count, so the
failed record does contribute to one of the counters, contrary to the claim
that counters reflect only successfully processed records. -/
theorem C4_counterexample :
    (upsert_data "t" sampleState [(sampleChangedB, FailMode.failMain)]).historical_count = 1 ∧
    (upsert_data "t" sampleState [(sampleChangedB, FailMode.failMain)]).rows_updated = 0 ∧
    (upsert_data "t" sampleState [(sampleChangedB, FailMode.failMain)]).rows_added = 0 := by
  exact ⟨rfl, rfl, rfl⟩

/-- C4 amended: a record whose processing raises is caught and skipped, the
remaining records of the batch are still processed from the resulting state,
and the failed record contributes nothing to rows_added, rows_updated or the
change log; however a failure striking the main-table UPDATE of a changed
record occurs after the history INSERT, so in that one case historical_count
still increments and the pre-update row is archived. -/
theorem C4_partial_failure_isolation (now : String) (s : UpsertState) (r : Rec)
    (f : FailMode) (pre post : List (Rec × FailMode)) (hf : f ≠ FailMode.ok) :
    upsert_data now s (pre ++ (r, f) :: post) =
      upsert_data now (processRecord now (upsert_data now s pre) (r, f)) post ∧
    (processRecord now s (r, f)).rows_added = s.rows_added ∧
    (processRecord now s (r, f)).rows_updated = s.rows_updated ∧
    (processRecord now s (r, f)).changes_log = s.changes_log ∧
    (processRecord now s (r, f) = s ∨
      (f = FailMode.failMain ∧
        ∃ sid old, r.system_id = some sid ∧ lookupMain s.main sid = some old ∧
          comparableChanged r old = true ∧
          processRecord now s (r, f) = historyApplied s old)) := by
  refine ⟨?_, ?_⟩
  · simp [upsert_data, List.foldl_append]
  cases f with
  | ok => exact absurd rfl hf
  | failEarly =>
    rw [step_failEarly]
    exact ⟨rfl, rfl, rfl, Or.inl rfl⟩
  | failMain =>
    rcases step_failMain now s r with h | ⟨sid, old, hsid, hl, hchg, h⟩
    · rw [h]; exact ⟨rfl, rfl, rfl, Or.inl rfl⟩
    · rw [h]
      exact ⟨rfl, rfl, rfl, Or.inr ⟨rfl, sid, old, hsid, hl, hchg, rfl⟩⟩

/-- C4 witness: a concrete batch where the middle record's main-table write
fails; the surrounding records are still processed and the failed record adds
nothing to rows_added, rows_updated or the log. -/
theorem C4_witness :
    upsert_data "t" sampleState
        ([(sampleNewSid, FailMode.ok)] ++ (sampleChangedB, FailMode.failMain) ::
          [(sampleNullSid, FailMode.ok)]) =
      upsert_data "t"
        (processRecord "t" (upsert_data "t" sampleState [(sampleNewSid, FailMode.ok)])
          (sampleChangedB, FailMode.failMain)) [(sampleNullSid, FailMode.ok)] ∧
    (processRecord "t" sampleState (sampleChangedB, FailMode.failMain)).rows_added =
      sampleState.rows_added ∧
    (processRecord "t" sampleState (sampleChangedB, FailMode.failMain)).rows_updated =
      sampleState.rows_updated ∧
    (processRecord "t" sampleState (sampleChangedB, FailMode.failMain)).changes_log =
      sampleState.changes_log ∧
    (processRecord "t" sampleState (sampleChangedB, FailMode.failMain) = sampleState ∨
      (FailMode.failMain = FailMode.failMain ∧
        ∃ sid old, sampleChangedB.system_id = some sid ∧
          lookupMain sampleState.main sid = some old ∧
          comparableChanged sampleChangedB old = true ∧
          processRecord "t" sampleState (sampleChangedB, FailMode.failMain) =
            historyApplied sampleState old)) :=
  C4_partial_failure_isolation "t" sampleState sampleChangedB FailMode.failMain
    [(sampleNewSid, FailMode.ok)] [(sampleNullSid, FailMode.ok)] (by decide)

/-- Invariant step for C9: each loop iteration keeps rows_added equal to the
number of insert entries and rows_updated equal to the number of update
entries in the accumulated log. -/
theorem countInv_step (now : String) (s : UpsertState) (rf : Rec × FailMode)
    (h₁ : s.rows_added = s.changes_log.countP (fun e => e.action == "insert"))
    (h₂ : s.rows_updated = s.changes_log.countP (fun e => e.action == "update")) :
    (processRecord now s rf).rows_added =
      (processRecord now s rf).changes_log.countP (fun e => e.action == "insert") ∧
    (processRecord now s rf).rows_updated =
      (processRecord now s rf).changes_log.countP (fun e => e.action == "update") := by
  obtain ⟨r, f⟩ := rf
  cases f with
  | failEarly => rw [step_failEarly]; exact ⟨h₁, h₂⟩
  | failMain =>
    rcases step_failMain now s r with h | ⟨sid, old, _, _, _, h⟩ <;> rw [h]
    · exact ⟨h₁, h₂⟩
    · exact ⟨h₁, h₂⟩
  | ok =>
    cases hsid : r.system_id with
    | none =>
      rw [step_insert now s r (by intro u hu; rw [hsid] at hu; exact nomatch hu)]
      simp [insertApplied, mkInsertEntry, List.countP_append, List.countP_cons, h₁, h₂]
    | some sid =>
      cases hl : lookupMain s.main sid with
      | none =>
        rw [step_insert now s r (by intro u hu; rw [hsid] at hu; cases hu; exact hl)]
        simp [insertApplied, mkInsertEntry, List.countP_append, List.countP_cons, h₁, h₂]
      | some old =>
        by_cases hchg : comparableChanged r old
        · rw [step_update now s r sid old hsid hl hchg]
          simp [mkUpdateEntry, List.countP_append, List.countP_cons, h₁, h₂]
        · rw [step_noop now s r sid old FailMode.ok hsid hl
            (Bool.not_eq_true _ ▸ hchg)]
          exact ⟨h₁, h₂⟩

/-- Folding the loop preserves the C9 invariant. -/
theorem countInv_fold (now : String) (data : List (Rec × FailMode)) :
    ∀ s : UpsertState,
      s.rows_added = s.changes_log.countP (fun e => e.action == "insert") →
      s.rows_updated = s.changes_log.countP (fun e => e.action == "update") →
      (upsert_data now s data).rows_added =
        (upsert_data now s data).changes_log.countP (fun e => e.action == "insert") ∧
      (upsert_data now s data).rows_updated =
        (upsert_data now s data).changes_log.countP (fun e => e.action == "update") := by
  induction data with
  | nil => intro s h₁ h₂; exact ⟨h₁, h₂⟩
  | cons rf t ih =>
    intro s h₁ h₂
    obtain ⟨g₁, g₂⟩ := countInv_step now s rf h₁ h₂
    exact ih (processRecord now s rf) g₁ g₂

/-- C9: at the end of every run (fault injection allowed), rows_added equals
the number of change-log entries with action insert and rows_updated the
number with action update. -/
theorem C9_counts_log_correspondence (now : String) (main hist : List Rec)
    (data : List (Rec × FailMode)) :
    (upsert_data now (initState main hist) data).rows_added =
      (upsert_data now (initState main hist) data).changes_log.countP
        (fun e => e.action == "insert") ∧
    (upsert_data now (initState main hist) data).rows_updated =
      (upsert_data now (initState main hist) data).changes_log.countP
        (fun e => e.action == "update") :=
  countInv_fold now data (initState main hist) rfl rfl

/-- The environment-sourced configuration of the script (lines 19-29): API
identifier and secret, and the four SQL Server connection settings.  A missing
environment variable is none; Python truthiness also treats "" as missing. -/
structure Config where
  identifier : Option String
  secret : Option String
  server : Option String
  database : Option String
  username : Option String
  password : Option String
deriving DecidableEq, Repr

/-- Python falsiness of an optional string: None and "" are falsy. -/
def pythonFalsy : Option String → Bool
  | none => true
  | some s => s == ""

/-- The module-level guard of lines 31-32: raise ValueError iff IDENTIFIER,
SECRET_KEY, server or database is falsy.  It runs at import time, before any
fetch or store operation. -/
def configAborts (c : Config) : Bool :=
  pythonFalsy c.identifier || pythonFalsy c.secret ||
    pythonFalsy c.server || pythonFalsy c.database

/-- C8 counterexample: with username and password both missing but the other
four values present, the startup guard does not abort, contrary to the claim
that a missing user or password aborts before any work. -/
theorem C8_counterexample :
    configAborts
      { identifier := some "id", secret := some "sk", server := some "host",
        database := some "db", username := none, password := none } = false := by
  decide

/-- C8 amended: the startup guard aborts exactly when the API identifier, the
secret, the store host or the database name is missing or empty; the store
username and password are not checked at startup, and the guard's verdict is
independent of them. -/
theorem C8_config_check (c : Config) :
    (configAborts c = true ↔
      (pythonFalsy c.identifier = true ∨ pythonFalsy c.secret = true ∨
        pythonFalsy c.server = true ∨ pythonFalsy c.database = true)) ∧
    ∀ u p : Option String,
      configAborts { c with username := u, password := p } = configAborts c := by
  constructor
  · simp [configAborts, Bool.or_eq_true, or_assoc]
  · intro u p; rfl

/-! Distinct-key stores and self-reconciliation (claims C2 and C7). -/

/-- No two rows (or records) share a non-null system_id. -/
def KeysDistinct (l : List Rec) : Prop :=
  l.Pairwise (fun a b => a.system_id.isSome = true → a.system_id ≠ b.system_id)

/-- In a distinct-key table the SELECT for a row's own system_id returns that
row. -/
theorem lookup_eq_of_mem :
    ∀ {main : List Rec} {row : Rec} {v : String}, KeysDistinct main →
      row ∈ main → row.system_id = some v → lookupMain main v = some row := by
  intro main
  induction main with
  | nil => intro row v _ h _; exact absurd h (List.not_mem_nil row)
  | cons x t ih =>
    intro row v hdst hmem hsid
    rcases List.pairwise_cons.mp hdst with ⟨hx, ht⟩
    rcases List.mem_cons.mp hmem with heq | hmem2
    · subst heq
      rw [lookupMain, List.find?_cons_of_pos _ (by simp [hsid])]
    · have hxne : ¬(x.system_id == some v) = true := by
        intro hb
        have hxv : x.system_id = some v := by simpa using hb
        have hne := hx row hmem2 (by rw [hxv]; rfl)
        rw [hxv, hsid] at hne
        exact hne rfl
      rw [lookupMain, List.find?_cons_of_neg]
      · exact ih ht hmem2 hsid
      · exact hxne

/-- Every element on the left of a Forall₂ is related to some member of the
right list. -/
theorem forall₂_mem_left {α β : Type} {R : α → β → Prop} :
    ∀ {l₁ : List α} {l₂ : List β}, List.Forall₂ R l₁ l₂ →
      ∀ a ∈ l₁, ∃ b, b ∈ l₂ ∧ R a b := by
  intro l₁ l₂ h
  induction h with
  | nil => intro a ha; exact absurd ha (List.not_mem_nil a)
  | @cons x y t₁ t₂ hr _ ih =>
    intro a ha
    rcases List.mem_cons.mp ha with heq | h2
    · subst heq; exact ⟨y, List.mem_cons_self y t₂, hr⟩
    · rcases ih a h2 with ⟨b, hb, hrb⟩
      exact ⟨b, List.mem_cons_of_mem y hb, hrb⟩

/-- A batch element agrees with a store row when it carries no fault, the same
system_id and the same nine comparable attributes (timeUpdated and
handover_date are free). -/
def SelfAgrees (rf : Rec × FailMode) (row : Rec) : Prop :=
  rf.2 = FailMode.ok ∧ rf.1.system_id = row.system_id ∧
  rf.1.project_id = row.project_id ∧ rf.1.name = row.name ∧
  rf.1.description = row.description ∧ rf.1.building_id = row.building_id ∧
  rf.1.building = row.building ∧ rf.1.discipline_id = row.discipline_id ∧
  rf.1.discipline = row.discipline ∧ rf.1.checklist_id = row.checklist_id ∧
  rf.1.checklist_name = row.checklist_name

/-- A record agreeing with its own (non-null-keyed) store row is a NO-OP. -/
theorem step_noop_selfAgree (now : String) (s : UpsertState)
    (rf : Rec × FailMode) (row : Rec) (hdst : KeysDistinct s.main)
    (hmem : row ∈ s.main) (hsome : row.system_id.isSome = true)
    (ha : SelfAgrees rf row) : processRecord now s rf = s := by
  obtain ⟨r, f⟩ := rf
  obtain ⟨hok, hsid, h1, h2, h3, h4, h5, h6, h7, h8, h9⟩ := ha
  obtain ⟨v, hv⟩ := Option.isSome_iff_exists.mp hsome
  cases hok
  have hchg : comparableChanged r row = false := by
    simp only [comparableChanged] at *
    simp [h1, h2, h3, h4, h5, h6, h7, h8, h9]
  exact step_noop now s r v row FailMode.ok (by rw [hsid, hv])
    (lookup_eq_of_mem hdst hmem hv) hchg

/-- A batch of records, each agreeing with a non-null-keyed store row, leaves
the whole state untouched. -/
theorem upsert_noop_all (now : String) :
    ∀ (batch : List (Rec × FailMode)) (s : UpsertState), KeysDistinct s.main →
      (∀ rf ∈ batch, ∃ row, row ∈ s.main ∧ row.system_id.isSome = true ∧
        SelfAgrees rf row) →
      upsert_data now s batch = s := by
  intro batch
  induction batch with
  | nil => intro s _ _; rfl
  | cons rf t ih =>
    intro s hdst h
    obtain ⟨row, hmem, hsome, ha⟩ := h rf (List.mem_cons_self rf t)
    have hstep : processRecord now s rf = s :=
      step_noop_selfAgree now s rf row hdst hmem hsome ha
    have : upsert_data now s (rf :: t) = upsert_data now s t := by
      simp [upsert_data, List.foldl_cons, hstep]
    rw [this]
    exact ih s hdst (fun rg hg => h rg (List.mem_cons_of_mem rf hg))

/-- A store row with a null system_id, as the code itself creates. -/
def nullRow : Rec := { sampleRow with system_id := none }

/-- C2 counterexample: a store holding one null-system_id row (a state the
insert path itself produces) reconciled against its own row re-inserts it:
rows_added is 1, not 0. -/
theorem C2_counterexample :
    (upsert_data "t" (initState [nullRow] []) [(nullRow, FailMode.ok)]).rows_added = 1 :=
  rfl

/-- C2 amended: for a store state whose rows all have non-null, pairwise
distinct system_ids (the invariant the store layer maintains), reconciling a
batch that matches the store's own rows on system_id and the nine comparable
attributes produces zero inserts, zero updates, zero history records and an
empty change log. -/
theorem C2_idempotence (now : String) (main hist : List Rec)
    (batch : List (Rec × FailMode))
    (hall : ∀ row ∈ main, row.system_id.isSome = true)
    (hdst : KeysDistinct main)
    (hagree : List.Forall₂ SelfAgrees batch main) :
    (upsert_data now (initState main hist) batch).rows_added = 0 ∧
    (upsert_data now (initState main hist) batch).rows_updated = 0 ∧
    (upsert_data now (initState main hist) batch).historical_count = 0 ∧
    (upsert_data now (initState main hist) batch).changes_log = [] := by
  have h : upsert_data now (initState main hist) batch = initState main hist := by
    apply upsert_noop_all now batch (initState main hist) hdst
    intro rf hrf
    obtain ⟨row, hm, hr⟩ := forall₂_mem_left hagree rf hrf
    exact ⟨row, hm, hall row hm, hr⟩
  rw [h]
  exact ⟨rfl, rfl, rfl, rfl⟩

/-- C2 witness: a concrete two-row store reconciled against its own rows
yields zero counters and an empty log. -/
theorem C2_witness :
    (upsert_data "t" (initState [sampleRow, sampleRow2] [])
      [(sampleRow, FailMode.ok), (sampleRow2, FailMode.ok)]).rows_added = 0 ∧
    (upsert_data "t" (initState [sampleRow, sampleRow2] [])
      [(sampleRow, FailMode.ok), (sampleRow2, FailMode.ok)]).rows_updated = 0 ∧
    (upsert_data "t" (initState [sampleRow, sampleRow2] [])
      [(sampleRow, FailMode.ok), (sampleRow2, FailMode.ok)]).historical_count = 0 ∧
    (upsert_data "t" (initState [sampleRow, sampleRow2] [])
      [(sampleRow, FailMode.ok), (sampleRow2, FailMode.ok)]).changes_log = [] :=
  C2_idempotence "t" [sampleRow, sampleRow2] []
    [(sampleRow, FailMode.ok), (sampleRow2, FailMode.ok)]
    (by decide) (by unfold KeysDistinct; decide)
    (List.Forall₂.cons ⟨rfl, rfl, rfl, rfl, rfl, rfl, rfl, rfl, rfl, rfl, rfl⟩
      (List.Forall₂.cons ⟨rfl, rfl, rfl, rfl, rfl, rfl, rfl, rfl, rfl, rfl, rfl⟩
        List.Forall₂.nil))

/-! Order of processing (claim C7). -/

/-- One fault-free loop iteration. -/
def stepOk (now : String) (s : UpsertState) (r : Rec) : UpsertState :=
  processRecord now s (r, FailMode.ok)

theorem upsert_map_ok (now : String) (s : UpsertState) (l : List Rec) :
    upsert_data now s (l.map (fun r => (r, FailMode.ok))) =
      l.foldl (stepOk now) s := by
  rw [upsert_data, List.foldl_map]
  rfl

/-- The three classifications a fault-free iteration can take. -/
inductive Action where
  | ins
  | upd (t : String) (old : Rec)
  | noop (t : String) (old : Rec)

/-- Classification of a record given the result of its key lookup. -/
def classifyAt (r : Rec) (t : String) : Option Rec → Action
  | none => Action.ins
  | some old =>
    if comparableChanged r old then Action.upd t old else Action.noop t old

/-- Classification of a record against the current main table. -/
def classify (s : UpsertState) (r : Rec) : Action :=
  match r.system_id with
  | none => Action.ins
  | some t => classifyAt r t (lookupMain s.main t)

/-- The state effect of each classification. -/
def applyAction (now : String) (s : UpsertState) (r : Rec) : Action → UpsertState
  | Action.ins => insertApplied now s r
  | Action.upd t old =>
    { s with main := updateMain s.main t r
             hist := s.hist ++ [old]
             rows_updated := s.rows_updated + 1
             historical_count := s.historical_count + 1
             changes_log := s.changes_log ++ [mkUpdateEntry now t r old] }
  | Action.noop _ _ => s

/-- A fault-free iteration applies its classification's effect. -/
theorem stepOk_eq_apply (now : String) (s : UpsertState) (r : Rec) :
    stepOk now s r = applyAction now s r (classify s r) := by
  unfold stepOk classify classifyAt
  split
  next hsid =>
    rw [step_insert now s r (fun v hv => by rw [hsid] at hv; exact nomatch hv)]
    rfl
  next t hsid =>
    split
    next hl =>
      rw [step_insert now s r (fun v hv => by rw [hsid] at hv; cases hv; exact hl)]
      rfl
    next old hl =>
      split
      next hchg =>
        rw [step_update now s r t old hsid hl hchg]
        rfl
      next hchg =>
        rw [step_noop now s r t old FailMode.ok hsid hl (by simpa using hchg)]
        rfl

/-- Inversion: an update classification pins down key, row and changed flag. -/
theorem classify_eq_upd {s : UpsertState} {r : Rec} {t : String} {old : Rec}
    (h : classify s r = Action.upd t old) :
    r.system_id = some t ∧ lookupMain s.main t = some old ∧
      comparableChanged r old = true := by
  unfold classify classifyAt at h
  split at h
  next hsid => exact nomatch h
  next u hsid =>
    split at h
    next hl => exact nomatch h
    next o hl =>
      split at h
      next hchg =>
        cases h
        exact ⟨hsid, hl, hchg⟩
      next hchg => exact nomatch h

/-- Inversion: an insert classification of a keyed record means its key was
absent. -/
theorem classify_eq_ins {s : UpsertState} {r : Rec}
    (h : classify s r = Action.ins) :
    ∀ u, r.system_id = some u → lookupMain s.main u = none := by
  intro u hu
  unfold classify classifyAt at h
  split at h
  next hsid => rw [hsid] at hu; exact nomatch hu
  next t hsid =>
    rw [hsid] at hu
    cases hu
    split at h
    next hl => exact hl
    next o hl =>
      split at h
      next => exact nomatch h
      next => exact nomatch h

/-- Each non-null system_id keys at most one row. -/
def UniqKeys (l : List Rec) : Prop :=
  ∀ sid : String, l.countP (fun row => row.system_id == some sid) ≤ 1

theorem uniq_of_distinct : ∀ {l : List Rec}, KeysDistinct l → UniqKeys l := by
  intro l
  induction l with
  | nil => intro _ sid; simp
  | cons x t ih =>
    intro h sid
    rcases List.pairwise_cons.mp h with ⟨hx, ht⟩
    rw [List.countP_cons]
    by_cases hp : (x.system_id == some sid) = true
    · have hxv : x.system_id = some sid := by simpa using hp
      have hzero : t.countP (fun row => row.system_id == some sid) = 0 := by
        rw [List.countP_eq_zero]
        intro a ha hb
        have hav : a.system_id = some sid := by simpa using hb
        exact hx a ha (by rw [hxv]; rfl) (by rw [hxv, hav])
      rw [hzero]
      simp [hp]
    · have : (x.system_id == some sid) = false := by simpa using hp
      rw [this]
      simpa using ih ht sid

theorem find?_eq_head?_filter {α : Type} (p : α → Bool) (l : List α) :
    l.find? p = (l.filter p).head? := by
  induction l with
  | nil => rfl
  | cons a t ih =>
    by_cases h : p a
    · rw [List.find?_cons_of_pos _ h, List.filter_cons_of_pos h, List.head?_cons]
    · rw [List.find?_cons_of_neg _ h, List.filter_cons_of_neg h, ih]

theorem perm_eq_of_length_le_one {α : Type} :
    ∀ {l₁ l₂ : List α}, l₁.Perm l₂ → l₁.length ≤ 1 → l₁ = l₂ := by
  intro l₁ l₂ h hl
  cases l₁ with
  | nil => exact (List.Perm.eq_nil h.symm).symm
  | cons a t =>
    cases t with
    | nil => exact (List.perm_singleton.mp h.symm).symm
    | cons b t2 => simp at hl

/-- In a unique-key table, the lookup is invariant under permutation. -/
theorem lookup_perm {m₁ m₂ : List Rec} (h : m₁.Perm m₂) (hu : UniqKeys m₁)
    (sid : String) : lookupMain m₁ sid = lookupMain m₂ sid := by
  rw [lookupMain, lookupMain, find?_eq_head?_filter, find?_eq_head?_filter]
  have hf := h.filter (fun row => row.system_id == some sid)
  have hlen : (m₁.filter (fun row => row.system_id == some sid)).length ≤ 1 := by
    rw [← List.countP_eq_length_filter]
    exact hu sid
  rw [perm_eq_of_length_le_one hf hlen]

/-- Two run states agree up to row order of the two tables, with equal
counters. -/
def StEquiv (s₁ s₂ : UpsertState) : Prop :=
  s₁.main.Perm s₂.main ∧ s₁.hist.Perm s₂.hist ∧
  s₁.rows_added = s₂.rows_added ∧ s₁.rows_updated = s₂.rows_updated ∧
  s₁.historical_count = s₂.historical_count

theorem stEquiv_refl (s : UpsertState) : StEquiv s s :=
  ⟨List.Perm.refl _, List.Perm.refl _, rfl, rfl, rfl⟩

theorem stEquiv_trans {a b c : UpsertState} (h₁ : StEquiv a b)
    (h₂ : StEquiv b c) : StEquiv a c :=
  ⟨h₁.1.trans h₂.1, h₁.2.1.trans h₂.2.1, h₁.2.2.1.trans h₂.2.2.1,
    h₁.2.2.2.1.trans h₂.2.2.2.1, h₁.2.2.2.2.trans h₂.2.2.2.2⟩

/-- The no-two-records-share-a-key relation is symmetric. -/
theorem keysRel_symm {a b : Rec}
    (h : a.system_id.isSome = true → a.system_id ≠ b.system_id) :
    b.system_id.isSome = true → b.system_id ≠ a.system_id := by
  intro hb heq
  cases ha : a.system_id with
  | none =>
    rw [ha] at heq
    rw [heq] at hb
    simp at hb
  | some ta => exact h (by rw [ha]; rfl) heq.symm

/-- If a and b share no key and b's key is u, then a's key is not u. -/
theorem ne_some_of_rel {a b : Rec}
    (hab : a.system_id.isSome = true → a.system_id ≠ b.system_id)
    {u : String} (hB : b.system_id = some u) : a.system_id ≠ some u := by
  intro he
  exact hab (by rw [he]; rfl) (by rw [he, hB])

/-- find? is unchanged by mapping a function that preserves the predicate and
fixes the elements satisfying it. -/
theorem find?_map_invariant {α : Type} (p : α → Bool) (f : α → α) :
    ∀ (l : List α), (∀ x, p (f x) = p x) → (∀ x, p x = true → f x = x) →
      List.find? p (l.map f) = List.find? p l := by
  intro l hp hid
  induction l with
  | nil => rfl
  | cons a t ih =>
    rw [List.map_cons]
    by_cases h : p a = true
    · rw [List.find?_cons_of_pos _ (by rw [hp]; exact h),
        List.find?_cons_of_pos _ h, hid a h]
    · rw [List.find?_cons_of_neg _ (by rw [hp a]; exact h),
        List.find?_cons_of_neg _ h, ih]

/-- Appending a row with a different (or null) key does not change a lookup. -/
theorem lookup_append_single (main : List Rec) (x : Rec) (sid : String)
    (hx : x.system_id ≠ some sid) :
    lookupMain (main ++ [x]) sid = lookupMain main sid := by
  rw [lookupMain, lookupMain, List.find?_append]
  have hpx : ¬((x.system_id == some sid) = true) := by simp [hx]
  have hnone : List.find? (fun row => row.system_id == some sid) [x] = none :=
    List.find?_eq_none.mpr (by intro y hy; rw [List.mem_singleton.mp hy]; exact hpx)
  rw [hnone]
  exact Option.or_none

/-- Updating rows keyed t does not change a lookup for a different key u. -/
theorem lookup_updateMain_ne (main : List Rec) (t : String) (r : Rec)
    (u : String) (h : t ≠ u) :
    lookupMain (updateMain main t r) u = lookupMain main u := by
  rw [lookupMain, lookupMain, updateMain]
  apply find?_map_invariant
  · intro x
    by_cases hx : (x.system_id == some t) = true
    · simp only [if_pos hx]
      rfl
    · simp only [if_neg hx]
  · intro x hx
    have hxu : x.system_id = some u := by simpa using hx
    have hne : (x.system_id == some t) = false := by
      rw [hxu]
      simpa using fun he => h he.symm
    simp [hne]

/-- Updating rows keyed t maps an appended row with a different key to
itself. -/
theorem updateMain_append (l : List Rec) (x : Rec) (t : String) (r : Rec)
    (hx : x.system_id ≠ some t) :
    updateMain (l ++ [x]) t r = updateMain l t r ++ [x] := by
  rw [updateMain, List.map_append, updateMain]
  congr 1
  simp only [List.map_cons, List.map_nil]
  rw [if_neg (show ¬((x.system_id == some t) = true) by simpa using hx)]

/-- Updates under two different keys commute. -/
theorem updateMain_comm (l : List Rec) (ta tb : String) (ra rb : Rec)
    (h : ta ≠ tb) :
    updateMain (updateMain l ta ra) tb rb =
      updateMain (updateMain l tb rb) ta ra := by
  rw [updateMain, updateMain, updateMain, updateMain, List.map_map,
    List.map_map]
  apply List.map_congr_left
  intro x _
  simp only [Function.comp]
  by_cases hxa : (x.system_id == some ta) = true
  · have hxta : x.system_id = some ta := by simpa using hxa
    have hxb : ¬((x.system_id == some tb) = true) := by
      rw [hxta]
      simpa using h
    have hob : ¬(((overwriteRow x ra).system_id == some tb) = true) := hxb
    rw [if_pos hxa, if_neg hob, if_neg hxb, if_pos hxa]
  · by_cases hxb : (x.system_id == some tb) = true
    · have hoa : ¬(((overwriteRow x rb).system_id == some ta) = true) := hxa
      rw [if_neg hxa, if_pos hxb, if_neg hoa]
    · rw [if_neg hxa, if_neg hxb, if_neg hxa]

theorem countP_eq_zero_of_lookup_none {main : List Rec} {sid : String}
    (h : lookupMain main sid = none) :
    main.countP (fun row => row.system_id == some sid) = 0 := by
  rw [List.countP_eq_zero]
  intro a ha
  exact List.find?_eq_none.mp h a ha

/-- A fault-free iteration preserves key uniqueness of the main table. -/
theorem uniq_stepOk (now : String) (s : UpsertState) (r : Rec)
    (hu : UniqKeys s.main) : UniqKeys (stepOk now s r).main := by
  rw [stepOk_eq_apply]
  cases hc : classify s r with
  | noop t old => exact hu
  | upd t old =>
    intro sid
    show (updateMain s.main t r).countP _ ≤ 1
    rw [updateMain, List.countP_map]
    have hiff : ∀ x ∈ s.main,
        (((fun row => row.system_id == some sid) ∘
          (fun row => if row.system_id == some t then overwriteRow row r
            else row)) x = true) ↔
        ((fun row => row.system_id == some sid) x = true) := by
      intro x _
      by_cases hx : (x.system_id == some t) = true
      · simp only [Function.comp, if_pos hx]
        exact Iff.rfl
      · simp only [Function.comp, if_neg hx]
    rw [List.countP_congr hiff]
    exact hu sid
  | ins =>
    intro sid
    show (s.main ++ [insertRow r.system_id r]).countP _ ≤ 1
    rw [List.countP_append]
    by_cases hmatch : ((insertRow r.system_id r).system_id == some sid) = true
    · have hr : r.system_id = some sid := by simpa using hmatch
      have hzero : s.main.countP (fun row => row.system_id == some sid) = 0 :=
        countP_eq_zero_of_lookup_none (classify_eq_ins hc sid hr)
      have hone : List.countP (fun row => row.system_id == some sid)
          [insertRow r.system_id r] ≤ 1 := by
        rw [List.countP_cons, List.countP_nil]
        by_cases h2 : ((insertRow r.system_id r).system_id == some sid) = true <;>
          simp [h2]
      omega
    · have : List.countP (fun row => row.system_id == some sid)
          [insertRow r.system_id r] = 0 := by
        rw [List.countP_eq_zero]
        intro a ha
        rw [List.mem_singleton.mp ha]
        simpa using hmatch
      rw [this]
      simpa using hu sid

/-- A lookup under a key the processed record does not carry is unchanged by
the iteration. -/
theorem lookup_stepOk_stable (now : String) (s : UpsertState) (r : Rec)
    (u : String) (hru : r.system_id ≠ some u) :
    lookupMain (stepOk now s r).main u = lookupMain s.main u := by
  rw [stepOk_eq_apply]
  cases hc : classify s r with
  | noop t old => rfl
  | ins =>
    show lookupMain (s.main ++ [insertRow r.system_id r]) u = _
    exact lookup_append_single s.main _ u hru
  | upd t old =>
    obtain ⟨hsid, _, _⟩ := classify_eq_upd hc
    have htu : t ≠ u := by
      intro he
      rw [he] at hsid
      exact hru hsid
    show lookupMain (updateMain s.main t r) u = _
    exact lookup_updateMain_ne s.main t r u htu

/-- Classification of b is unchanged by first processing a record sharing no
key with it. -/
theorem classify_stable (now : String) (s : UpsertState) (a b : Rec)
    (hab : a.system_id.isSome = true → a.system_id ≠ b.system_id) :
    classify (stepOk now s a) b = classify s b := by
  cases hB : b.system_id with
  | none => simp only [classify, hB]
  | some u =>
    have hane : a.system_id ≠ some u := ne_some_of_rel hab hB
    have hst := lookup_stepOk_stable now s a u hane
    simp only [classify, hB, hst]

/-- Two consecutive fault-free iterations on records sharing no non-null key
can be swapped, up to row order of the tables. -/
theorem step_swap (now : String) (s : UpsertState) (a b : Rec)
    (hab : a.system_id.isSome = true → a.system_id ≠ b.system_id) :
    StEquiv (stepOk now (stepOk now s a) b) (stepOk now (stepOk now s b) a) := by
  have hba := keysRel_symm hab
  have e1 : stepOk now (stepOk now s a) b =
      applyAction now (applyAction now s a (classify s a)) b (classify s b) := by
    rw [stepOk_eq_apply now (stepOk now s a) b, classify_stable now s a b hab,
      stepOk_eq_apply now s a]
  have e2 : stepOk now (stepOk now s b) a =
      applyAction now (applyAction now s b (classify s b)) a (classify s a) := by
    rw [stepOk_eq_apply now (stepOk now s b) a, classify_stable now s b a hba,
      stepOk_eq_apply now s b]
  rw [e1, e2]
  cases hca : classify s a with
  | noop ta olda => exact stEquiv_refl _
  | ins =>
    cases hcb : classify s b with
    | noop tb oldb => exact stEquiv_refl _
    | ins =>
      refine ⟨?_, List.Perm.refl _, rfl, rfl, rfl⟩
      show ((s.main ++ [insertRow a.system_id a]) ++ [insertRow b.system_id b]).Perm
        ((s.main ++ [insertRow b.system_id b]) ++ [insertRow a.system_id a])
      rw [List.append_assoc, List.append_assoc]
      exact List.Perm.append_left s.main
        (List.Perm.swap (insertRow b.system_id b) (insertRow a.system_id a) [])
    | upd tb oldb =>
      obtain ⟨hBs, hBl, hBc⟩ := classify_eq_upd hcb
      refine ⟨?_, List.Perm.refl _, rfl, rfl, rfl⟩
      show (updateMain (s.main ++ [insertRow a.system_id a]) tb b).Perm
        (updateMain s.main tb b ++ [insertRow a.system_id a])
      rw [updateMain_append s.main (insertRow a.system_id a) tb b
        (ne_some_of_rel hab hBs)]
  | upd ta olda =>
    obtain ⟨hAs, hAl, hAc⟩ := classify_eq_upd hca
    cases hcb : classify s b with
    | noop tb oldb => exact stEquiv_refl _
    | ins =>
      refine ⟨?_, List.Perm.refl _, rfl, rfl, rfl⟩
      show (updateMain s.main ta a ++ [insertRow b.system_id b]).Perm
        (updateMain (s.main ++ [insertRow b.system_id b]) ta a)
      rw [updateMain_append s.main (insertRow b.system_id b) ta a
        (ne_some_of_rel hba hAs)]
    | upd tb oldb =>
      obtain ⟨hBs, hBl, hBc⟩ := classify_eq_upd hcb
      have htatb : ta ≠ tb := by
        intro he
        exact (ne_some_of_rel hab hBs) (by rw [hAs, he])
      refine ⟨?_, ?_, rfl, rfl, rfl⟩
      · show (updateMain (updateMain s.main ta a) tb b).Perm
          (updateMain (updateMain s.main tb b) ta a)
        rw [updateMain_comm s.main ta tb a b htatb]
      · show ((s.hist ++ [olda]) ++ [oldb]).Perm ((s.hist ++ [oldb]) ++ [olda])
        rw [List.append_assoc, List.append_assoc]
        exact List.Perm.append_left s.hist (List.Perm.swap oldb olda [])

/-- A fault-free iteration respects state equivalence on unique-key tables. -/
theorem stepOk_equiv (now : String) {s₁ s₂ : UpsertState} (h : StEquiv s₁ s₂)
    (hu : UniqKeys s₁.main) (r : Rec) :
    StEquiv (stepOk now s₁ r) (stepOk now s₂ r) := by
  obtain ⟨hm, hh, ha, hup, hhc⟩ := h
  have hcls : classify s₁ r = classify s₂ r := by
    cases hr : r.system_id with
    | none => simp only [classify, hr]
    | some u => simp only [classify, hr, lookup_perm hm hu u]
  rw [stepOk_eq_apply, stepOk_eq_apply, ← hcls]
  cases hc : classify s₁ r with
  | ins =>
    exact ⟨List.Perm.append hm (List.Perm.refl _), hh,
      by simp [applyAction, insertApplied, ha],
      by simp [applyAction, insertApplied, hup],
      by simp [applyAction, insertApplied, hhc]⟩
  | upd t old =>
    exact ⟨List.Perm.map _ hm, List.Perm.append hh (List.Perm.refl _),
      by simp [applyAction, ha], by simp [applyAction, hup],
      by simp [applyAction, hhc]⟩
  | noop t old => exact ⟨hm, hh, ha, hup, hhc⟩

/-- Folding the loop over any record list respects state equivalence. -/
theorem fold_stepOk_equiv (now : String) (l : List Rec) :
    ∀ {s₁ s₂ : UpsertState}, StEquiv s₁ s₂ → UniqKeys s₁.main →
      StEquiv (l.foldl (stepOk now) s₁) (l.foldl (stepOk now) s₂) := by
  induction l with
  | nil => intro s₁ s₂ h _; exact h
  | cons r t ih =>
    intro s₁ s₂ h hu
    simp only [List.foldl_cons]
    exact ih (stepOk_equiv now h hu r) (uniq_stepOk now s₁ r hu)

/-- Permuting a batch of pairwise-distinct-key records yields equivalent final
states from any unique-key store. -/
theorem fold_stepOk_perm (now : String) :
    ∀ {l₁ l₂ : List Rec}, l₁.Perm l₂ →
      ∀ s : UpsertState, KeysDistinct l₁ → UniqKeys s.main →
        StEquiv (l₁.foldl (stepOk now) s) (l₂.foldl (stepOk now) s) := by
  intro l₁ l₂ hp
  induction hp with
  | nil => intro s _ _; exact stEquiv_refl _
  | @cons x t₁ t₂ hp2 ih =>
    intro s hk hu
    simp only [List.foldl_cons]
    exact ih (stepOk now s x) (List.pairwise_cons.mp hk).2 (uniq_stepOk now s x hu)
  | @swap x y l =>
    intro s hk hu
    simp only [List.foldl_cons]
    apply fold_stepOk_equiv
    · exact step_swap now s y x
        ((List.pairwise_cons.mp hk).1 x (List.mem_cons_self x l))
    · exact uniq_stepOk now (stepOk now s y) x (uniq_stepOk now s y hu)
  | @trans m₁ m₂ m₃ h₁ h₂ ih₁ ih₂ =>
    intro s hk hu
    have hk₂ : KeysDistinct m₂ :=
      (List.Perm.pairwise_iff (fun hxy => keysRel_symm hxy) h₁).mp hk
    exact stEquiv_trans (ih₁ s hk hu) (ih₂ s hk₂ hu)

/-- C7 counterexample: two fetched records for the same system_id S1 with
different names: processing order changes which name the main table ends up
with, so the final main-table state is not order-independent. -/
theorem C7_counterexample :
    (upsert_data "t" sampleState
        [(sampleChangedB, FailMode.ok), (sampleChangedC, FailMode.ok)]).main ≠
      (upsert_data "t" sampleState
        [(sampleChangedC, FailMode.ok), (sampleChangedB, FailMode.ok)]).main := by
  decide

/-- C7 amended: when no two records of the batch share a non-null system_id
and the initial store keys each non-null system_id at most once (the invariant
the store layer maintains), any permutation of the batch yields the same final
main and history tables up to row order (inserts and archives land in
processing order) and identical added/updated/archived counters. -/
theorem C7_order_independence (now : String) (main hist : List Rec)
    (b₁ b₂ : List Rec) (hp : b₁.Perm b₂) (hk : KeysDistinct b₁)
    (hm : KeysDistinct main) :
    StEquiv
      (upsert_data now (initState main hist)
        (b₁.map (fun r => (r, FailMode.ok))))
      (upsert_data now (initState main hist)
        (b₂.map (fun r => (r, FailMode.ok)))) := by
  rw [upsert_map_ok, upsert_map_ok]
  exact fold_stepOk_perm now hp (initState main hist) hk (uniq_of_distinct hm)

/-- C7 witness: swapping an insert-classified and an update-classified record
with different keys yields equivalent final states. -/
theorem C7_witness :
    StEquiv
      (upsert_data "t" (initState [sampleRow] [])
        ([sampleNewSid, sampleChangedB].map (fun r => (r, FailMode.ok))))
      (upsert_data "t" (initState [sampleRow] [])
        ([sampleChangedB, sampleNewSid].map (fun r => (r, FailMode.ok)))) :=
  C7_order_independence "t" [sampleRow] [] [sampleNewSid, sampleChangedB]
    [sampleChangedB, sampleNewSid] (by decide) (by unfold KeysDistinct; decide)
    (by unfold KeysDistinct; decide)

/-- One element of the list returned by the list-projects call, as read by
main (line 402): its project_id and its name. -/
structure Project where
  project_id : String
  name : String
deriving DecidableEq, Repr

/-- Python substring membership `pat in hay` on strings: some offset of hay
starts with pat. -/
def strContains (hay pat : String) : Bool :=
  (List.range (hay.toList.length + 1)).any
    (fun i => ((hay.toList.drop i).take pat.toList.length) == pat.toList)

/-- The project filter of main (line 402): the project_ids of exactly those
projects whose name contains the substring GFTX, in order; only these are
fetched and reconciled. -/
def gftx_project_ids (projects : List Project) : List String :=
  (projects.filter (fun p => strContains p.name "GFTX")).map
    (fun p => p.project_id)

/-- C10: a project_id is in the synchronized list iff it belongs to a listed
project whose name contains the substring GFTX; every project whose name
lacks the substring contributes nothing. -/
theorem C10_project_filtering (projects : List Project) (pid : String) :
    pid ∈ gftx_project_ids projects ↔
      ∃ p, p ∈ projects ∧ strContains p.name "GFTX" = true ∧
        p.project_id = pid := by
  simp only [gftx_project_ids, List.mem_map, List.mem_filter]
  constructor
  · rintro ⟨p, ⟨hp, hc⟩, he⟩
    exact ⟨p, hp, hc, he⟩
  · rintro ⟨p, hp, hc, he⟩
    exact ⟨p, ⟨hp, hc⟩, he⟩

end SystemPull
